import Mathlib

/-!
# Verification of `research-search` (`src/app.py`)

Shallow embedding of the single source file `src/app.py`, a small Flask
application: a Crossref result normalizer (`fetch_crossref_results`,
lines 17-56), the index request handler with a process-wide results cache
(`index`, lines 59-99, globals at lines 13-14), and a CSV download route
(`download_csv`, lines 102-117).

Raw upstream items are arbitrary parsed-JSON values, modelled by `Json`.
Python dynamic operations that can raise (`.get` on a non-dict, indexing,
iteration, `.strip` on a non-string) are modelled in `Except String`, the
error carrying the Python exception kind. Python truthiness is `truthy`.
-/

namespace ResearchSearch

/-- A parsed JSON value, as handed to the Python code by `response.json()`.
Numbers are modelled as integers (the fields the program touches are years
and the like; nothing in the program does float arithmetic). -/
inductive Json where
  | null : Json
  | bool (b : Bool) : Json
  | num (n : Int) : Json
  | str (s : String) : Json
  | arr (xs : List Json) : Json
  | obj (kvs : List (String × Json)) : Json

/-- Python truthiness of a value: `None`, `False`, `0`, `""`, `[]`, `{}` are
falsy, everything else is truthy. -/
def truthy : Json → Bool
  | .null => false
  | .bool b => b
  | .num n => n != 0
  | .str s => s != ""
  | .arr [] => false
  | .arr (_ :: _) => true
  | .obj [] => false
  | .obj (_ :: _) => true

/-- First-match lookup in the key/value list of a JSON object (a Python dict
holds each key once, so first-match agrees with dict lookup). -/
def lookupKey : List (String × Json) → String → Option Json
  | [], _ => none
  | (k, v) :: rest, key => if k = key then some v else lookupKey rest key

/-- Python `x.get(key, default)`: defined on dicts, raises `AttributeError`
on any other value (including `None`). A present key wins even when its
value is `null`. -/
def pyGet (j : Json) (key : String) (default : Json) : Except String Json :=
  match j with
  | .obj kvs => .ok ((lookupKey kvs key).getD default)
  | _ => .error "AttributeError: get"

/-- Python `x[0]`: first element of a list, first character of a non-empty
string; `IndexError` when empty, `TypeError`/`KeyError` on anything else. -/
def subscript0 : Json → Except String Json
  | .arr (x :: _) => .ok x
  | .arr [] => .error "IndexError"
  | .str s =>
      match s.data with
      | c :: _ => .ok (.str (String.mk [c]))
      | [] => .error "IndexError"
  | _ => .error "TypeError: not subscriptable"

/-- Python `for x in j`: lists yield their elements, strings their
characters, dicts their keys; everything else raises `TypeError`. -/
def pyIter : Json → Except String (List Json)
  | .arr xs => .ok xs
  | .str s => .ok (s.data.map (fun c => .str (String.mk [c])))
  | .obj kvs => .ok (kvs.map (fun kv => .str kv.1))
  | _ => .error "TypeError: not iterable"

/-- Drop leading and trailing whitespace from a character list. -/
def stripChars (l : List Char) : List Char :=
  ((l.dropWhile Char.isWhitespace).reverse.dropWhile Char.isWhitespace).reverse

/-- Python `s.strip()` on a string: remove surrounding whitespace (ASCII
whitespace, which covers every input these theorems touch). -/
def pyStrip (s : String) : String := String.mk (stripChars s.data)

/-- Python `x.strip()`: defined on strings only (`AttributeError`
otherwise). -/
def pyStripStr : Json → Except String String
  | .str s => .ok (pyStrip s)
  | _ => .error "AttributeError: strip"

/-- One normalized search record, the dict built at `src/app.py:49-54`.
`Title`, `DOI` and `Year` hold whatever Python value the item yielded
(string, int, or `None` when the source supplied an explicit null);
`Authors` is always a string. -/
structure SearchRecord where
  Title : Json
  DOI : Json
  Year : Json
  Authors : String

/-- `src/app.py:32-33` — `title_list = item.get("title") or []`;
`title = title_list[0] if title_list else "Untitled"`. -/
def titleOf (item : Json) : Except String Json :=
  match pyGet item "title" .null with
  | .error e => .error e
  | .ok t =>
      let title_list := if truthy t then t else .arr []
      if truthy title_list then subscript0 title_list else .ok (.str "Untitled")

/-- `src/app.py:34` — `doi = item.get("DOI", "")`. -/
def doiOf (item : Json) : Except String Json :=
  pyGet item "DOI" (.str "")

/-- `src/app.py:36-37` —
`date_parts = published.get("date-parts") or [[]]`;
`year = date_parts[0][0] if date_parts and date_parts[0] else "—"`. -/
def yearFromPublished (published : Json) : Except String Json :=
  match pyGet published "date-parts" .null with
  | .error e => .error e
  | .ok dpJ =>
      let date_parts := if truthy dpJ then dpJ else .arr [.arr []]
      if truthy date_parts then
        match subscript0 date_parts with
        | .error e => .error e
        | .ok d0 =>
            if truthy d0 then subscript0 d0 else .ok (.str "—")
      else .ok (.str "—")

/-- `src/app.py:35-37` —
`published = item.get("published-print") or item.get("published-online") or {}`
followed by the year extraction. -/
def yearOf (item : Json) : Except String Json :=
  match pyGet item "published-print" .null with
  | .error e => .error e
  | .ok pp =>
      match pyGet item "published-online" .null with
      | .error e => .error e
      | .ok po =>
          yearFromPublished (if truthy pp then pp else if truthy po then po else .obj [])

/-- `src/app.py:44` — `" ".join(part for part in [given, family] if part)`. -/
def joinSpace (given family : String) : String :=
  String.intercalate " " (([given, family]).filter (fun part => part ≠ ""))

/-- `src/app.py:41-46` — the author loop: per entry, `.get`/`.strip` the
given and family names, join the non-empty parts, keep non-empty results. -/
def authorNames : List Json → List String → Except String (List String)
  | [], acc => .ok acc
  | author :: rest, acc =>
      match pyGet author "given" (.str "") with
      | .error e => .error e
      | .ok g =>
          match pyStripStr g with
          | .error e => .error e
          | .ok given =>
              match pyGet author "family" (.str "") with
              | .error e => .error e
              | .ok f =>
                  match pyStripStr f with
                  | .error e => .error e
                  | .ok family =>
                      let full_name := joinSpace given family
                      authorNames rest
                        (if full_name ≠ "" then acc ++ [full_name] else acc)

/-- `src/app.py:39-47` — `authors = item.get("author", [])`, the name loop,
and `author_str = "; ".join(author_names) if author_names else "Unknown"`. -/
def authorsOf (item : Json) : Except String String :=
  match pyGet item "author" (.arr []) with
  | .error e => .error e
  | .ok aJ =>
      match pyIter aJ with
      | .error e => .error e
      | .ok authors =>
          match authorNames authors [] with
          | .error e => .error e
          | .ok names =>
              .ok (if names ≠ [] then String.intercalate "; " names else "Unknown")

/-- `src/app.py:31-54` — the loop body of `fetch_crossref_results`: one raw
item to one `SearchRecord`, evaluating the four fields in source order and
propagating the first Python exception. -/
def normalizeItem (item : Json) : Except String SearchRecord :=
  match titleOf item with
  | .error e => .error e
  | .ok t =>
      match doiOf item with
      | .error e => .error e
      | .ok d =>
          match yearOf item with
          | .error e => .error e
          | .ok y =>
              match authorsOf item with
              | .error e => .error e
              | .ok a => .ok ⟨t, d, y, a⟩

/-- Map `normalizeItem` over the raw items, in order, propagating the first
exception (the `for item in items` loop of `src/app.py:31-54`). -/
def normalizeItems : List Json → Except String (List SearchRecord)
  | [] => .ok []
  | item :: rest =>
      match normalizeItem item with
      | .error e => .error e
      | .ok r =>
          match normalizeItems rest with
          | .error e => .error e
          | .ok rs => .ok (r :: rs)

/-! ## The Search Client (`fetch_crossref_results`, lines 17-28) and handler

The network is abstracted by an `Upstream` oracle: what the single
`requests.get` of `src/app.py:24` produced. `raise_for_status` on a
non-2xx status raises `requests.HTTPError` carrying the status code; any
transport failure (DNS, refused connection, timeout) raises another
`requests.RequestException`, as does a JSON-decode failure of the body. -/

/-- Outcome of the one upstream HTTP GET (`src/app.py:24-27`). -/
inductive Upstream where
  | success (body : Json) : Upstream
  | httpError (status : Nat) : Upstream
  | requestError : Upstream

/-- What `fetch_crossref_results` can raise, as seen by its caller:
`requests.HTTPError`, another `requests.RequestException`, or an uncaught
Python exception escaping the normalization code. -/
inductive FetchErr where
  | httpError (status : Nat) : FetchErr
  | requestException : FetchErr
  | uncaught (msg : String) : FetchErr

/-- `src/app.py:17-56` — `fetch_crossref_results`, given the upstream
outcome: re-raise HTTP/transport failures, otherwise
`items = data.get("message", {}).get("items", [])` and normalize each item.
The returned `List SearchRecord` stands for the `pd.DataFrame` built by
`pd.DataFrame.from_records` (`.empty` iff the list is empty). -/
def fetch_crossref_results (upstream : Upstream) : Except FetchErr (List SearchRecord) :=
  match upstream with
  | .httpError s => .error (.httpError s)
  | .requestError => .error .requestException
  | .success body =>
      match pyGet body "message" (.obj []) with
      | .error e => .error (.uncaught e)
      | .ok msg =>
          match pyGet msg "items" (.arr []) with
          | .error e => .error (.uncaught e)
          | .ok itemsJ =>
              match pyIter itemsJ with
              | .error e => .error (.uncaught e)
              | .ok items =>
                  match normalizeItems items with
                  | .error e => .error (.uncaught e)
                  | .ok recs => .ok recs

/-! ## Process-wide state and the request handler (`index`, `download_csv`) -/

/-- The module-level globals of `src/app.py:13-14`:
`_latest_results_df` and `_latest_query`. -/
structure St where
  latest_results_df : Option (List SearchRecord)
  latest_query : Option String

/-- The state at process start (`src/app.py:13-14`, both `None`). -/
def initialSt : St := ⟨none, none⟩

/-- The HTTP response a handler produces: a redirect to the index route, a
render of `index.html` with its context (`results`, `keyword`, `rows`), the
`send_file` CSV attachment (whose bytes are the UTF-8 encoding of
`content`), or an uncaught-exception 500. -/
inductive Response where
  | redirectIndex : Response
  | render (results : Option (List SearchRecord)) (keyword : String) (rows : Int) : Response
  | sendFile (download_name mimetype : String) (content : String) : Response
  | internalError (msg : String) : Response

/-- A handler run: the response, the flashed messages (in order), and the
globals after the request. -/
structure Outcome where
  resp : Response
  flashes : List String
  st : St

/-- Python `x or d` for an optional form field (`request.form.get` returns
`None` when absent; `None` and `""` are falsy). -/
def pyOrStr (o : Option String) (d : String) : String :=
  match o with
  | none => d
  | some s => if s = "" then d else s

/-- Python `a or b` on strings. -/
def pyOr (a b : String) : String := if a = "" then b else a

/-- Digit run accepted by Python `int(...)`: decimal digits with single
underscores allowed strictly between digits. -/
def pyDigitsOk : List Char → Bool
  | [] => false
  | [c] => c.isDigit
  | c :: '_' :: rest => c.isDigit && pyDigitsOk rest
  | c :: rest => c.isDigit && pyDigitsOk rest

/-- Decimal value of a digit list. -/
def natOfDigits (cs : List Char) : Nat :=
  cs.foldl (fun acc c => 10 * acc + (c.toNat - 48)) 0

/-- Python `int(s)` on a `str`: strip surrounding whitespace, optional
sign, then an underscore-separated digit run; `ValueError` (here `none`)
otherwise. -/
def pyInt (s : String) : Option Int :=
  match (pyStrip s).data with
  | '+' :: rest =>
      if pyDigitsOk rest then some ((natOfDigits (rest.filter Char.isDigit) : Nat) : Int) else none
  | '-' :: rest =>
      if pyDigitsOk rest then some (-((natOfDigits (rest.filter Char.isDigit) : Nat) : Int)) else none
  | cs =>
      if pyDigitsOk cs then some ((natOfDigits (cs.filter Char.isDigit) : Nat) : Int) else none

/-- `src/app.py:69-73` — `rows_raw = request.form.get("rows") or "10"`;
`rows = max(1, min(100, int(rows_raw)))` with `ValueError` giving `10`. -/
def effectiveRows (form_rows : Option String) : Int :=
  let rows_raw := pyOrStr form_rows "10"
  match pyInt rows_raw with
  | some n => max 1 (min 100 n)
  | none => 10

/-- `src/app.py:94-99` — the `render_template` call:
`results=results_df if results_df is not None else _latest_results_df`,
`keyword=keyword or (_latest_query or "")`, `rows=rows`. -/
def renderResp (results_df : Option (List SearchRecord)) (keyword : String)
    (rows : Int) (st : St) : Response :=
  .render
    (match results_df with
     | some df => some df
     | none => st.latest_results_df)
    (pyOr keyword (pyOrStr st.latest_query ""))
    rows

/-- `src/app.py:67-99` — the POST branch of `index`. The `oracle` is the
network: what the upstream GET yields for a given keyword and rows. -/
def indexPost (form_keyword form_rows : Option String)
    (oracle : String → Int → Upstream) (st : St) : Outcome :=
  let keyword := pyStrip (pyOrStr form_keyword "")
  let rows := effectiveRows form_rows
  if keyword = "" then
    { resp := .redirectIndex
      flashes := ["Please enter a research topic keyword."]
      st := st }
  else
    match fetch_crossref_results (oracle keyword rows) with
    | .error (.httpError s) =>
        { resp := .redirectIndex
          flashes := ["Crossref API error: " ++ toString s]
          st := st }
    | .error .requestException =>
        { resp := .redirectIndex
          flashes := ["Unable to reach Crossref API. Please try again later."]
          st := st }
    | .error (.uncaught msg) =>
        { resp := .internalError msg, flashes := [], st := st }
    | .ok results_df =>
        if results_df.isEmpty then
          { resp := renderResp (some results_df) keyword rows st
            flashes := ["No results found for that query after 2015."]
            st := st }
        else
          let st' : St := ⟨some results_df, some keyword⟩
          { resp := renderResp (some results_df) keyword rows st'
            flashes := []
            st := st' }

/-- `src/app.py:59-99` — the GET branch of `index`: `results_df = None`,
`keyword = ""`, `rows = 10`, straight to `render_template`. -/
def indexGet (st : St) : Outcome :=
  { resp := renderResp none "" 10 st, flashes := [], st := st }

/-! ## CSV serialization (`download_csv`, `src/app.py:102-117`)

`_latest_results_df.to_csv(csv_buffer, index=False)` writes, on this
platform, a header line `Title,DOI,Year,Authors`, then one line per record,
each line terminated by a newline, cells joined by commas with
`csv.QUOTE_MINIMAL` quoting (quote a cell containing a comma, quote,
newline or carriage return; double embedded quotes). Missing values
(`None`) are written as the empty string. -/

/-- The double-quote character. -/
def dq : Char := Char.ofNat 34

mutual

/-- How the CSV writer renders one Python cell value as text: strings
as-is, ints in decimal, `None` as the empty string (pandas missing-value
rendering), booleans as `True`/`False`; containers fall back to a
`repr`-like rendering (never produced by the normalizer). -/
def pyStr : Json → String
  | .null => ""
  | .bool b => if b then "True" else "False"
  | .num n => toString n
  | .str s => s
  | .arr xs => "[" ++ pyStrList xs ++ "]"
  | .obj kvs => "\x7b" ++ pyStrKvs kvs ++ "\x7d"

/-- Comma-joined renderings of list elements. -/
def pyStrList : List Json → String
  | [] => ""
  | [x] => pyStr x
  | x :: xs => pyStr x ++ ", " ++ pyStrList xs

/-- Comma-joined renderings of object values. -/
def pyStrKvs : List (String × Json) → String
  | [] => ""
  | [(_, v)] => pyStr v
  | (_, v) :: kvs => pyStr v ++ ", " ++ pyStrKvs kvs

end

/-- `csv.QUOTE_MINIMAL`: quote iff the cell holds a comma, a quote, a
newline or a carriage return. -/
def needsQuote (s : String) : Bool :=
  s.data.any (fun c => c = ',' || c = dq || c = '\n' || c = '\x0d')

/-- Double every quote character (CSV escaping inside a quoted cell). -/
def escapeQuotes : List Char → List Char
  | [] => []
  | c :: rest => if c = dq then dq :: dq :: escapeQuotes rest else c :: escapeQuotes rest

/-- One serialized CSV cell under minimal quoting. -/
def csvCell (s : String) : String :=
  if needsQuote s then String.mk (dq :: (escapeQuotes s.data ++ [dq])) else s

/-- Comma-join of already-serialized cells. -/
def csvJoin : List String → String
  | [] => ""
  | [c] => c
  | c :: cs => c ++ "," ++ csvJoin cs

/-- One CSV line: quoted cells joined by commas, newline-terminated. -/
def csvRow (cells : List String) : String :=
  csvJoin (cells.map csvCell) ++ "\n"

/-- The four cell texts of one record, in column order
`Title, DOI, Year, Authors`. -/
def recordCells (r : SearchRecord) : List String :=
  [pyStr r.Title, pyStr r.DOI, pyStr r.Year, r.Authors]

/-- The data lines of the CSV, one per record. -/
def csvBody : List SearchRecord → String
  | [] => ""
  | r :: rs => csvRow (recordCells r) ++ csvBody rs

/-- `to_csv(..., index=False)` of the cached records: header line then one
line per record. -/
def toCsv (rs : List SearchRecord) : String :=
  csvRow ["Title", "DOI", "Year", "Authors"] ++ csvBody rs

/-- `src/app.py:102-117` — the `/download` route: redirect with a flash
when the cache is `None` or empty, otherwise serialize the cached frame
and return it as a `text/csv` attachment named `crossref_results.csv`. -/
def download_csv (st : St) : Outcome :=
  match st.latest_results_df with
  | none =>
      { resp := .redirectIndex
        flashes := ["No search results to download yet."]
        st := st }
  | some df =>
      if df.isEmpty then
        { resp := .redirectIndex
          flashes := ["No search results to download yet."]
          st := st }
      else
        { resp := .sendFile "crossref_results.csv" "text/csv" (toCsv df)
          flashes := []
          st := st }

/-- One incoming HTTP request against the app's three routes. For a POST
the oracle is the upstream network behaviour during that request. -/
inductive Request where
  | getIndex : Request
  | postIndex (form_keyword form_rows : Option String)
      (oracle : String → Int → Upstream) : Request
  | getDownload : Request

/-- Dispatch a request to its handler. -/
def handle : Request → St → Outcome
  | .getIndex, st => indexGet st
  | .postIndex k r oracle, st => indexPost k r oracle st
  | .getDownload, st => download_csv st

/-! ## A standard CSV reader, for the round-trip claims

`parseCsv` parses CSV text (comma-separated, minimally quoted, quotes
doubled inside quoted cells, newline-terminated lines) back into rows of
cell strings. -/

/-- Characters an unquoted cell may contain: anything but the separator
and the line terminator. -/
def csvPlain (c : Char) : Bool := c != ',' && c != '\n'

/-- Read the remainder of a quoted cell (the opening quote already
consumed): a doubled quote stands for one quote, a lone quote closes. -/
def parseQuotedAux : List Char → Option (List Char × List Char)
  | [] => none
  | [c] => if c = dq then some ([], []) else none
  | c :: c2 :: rest =>
      if c = dq then
        if c2 = dq then (parseQuotedAux rest).map (fun p => (dq :: p.1, p.2))
        else some ([], c2 :: rest)
      else (parseQuotedAux (c2 :: rest)).map (fun p => (c :: p.1, p.2))

/-- Read one cell: quoted if it opens with a quote, else the maximal
separator-free run. Returns the cell text and the unconsumed suffix. -/
def parseCellChars (cs : List Char) : Option (List Char × List Char) :=
  match cs with
  | [] => some ([], [])
  | c :: rest =>
      if c = dq then parseQuotedAux rest
      else some ((c :: rest).takeWhile csvPlain, (c :: rest).dropWhile csvPlain)

/-- Dropping a prefix never lengthens a list. -/
theorem dropWhile_length_le (p : Char → Bool) (l : List Char) :
    (l.dropWhile p).length ≤ l.length := by
  induction l with
  | nil => simp
  | cons c rest ih =>
      rw [List.dropWhile_cons]
      by_cases h : p c = true
      · simp only [if_pos h, List.length_cons]; omega
      · simp [h]

/-- A successfully parsed quoted cell strictly consumes input. -/
theorem parseQuotedAux_length_aux (n : Nat) :
    ∀ cs : List Char, cs.length ≤ n → ∀ p r, parseQuotedAux cs = some (p, r) →
      r.length < cs.length := by
  induction n with
  | zero =>
      intro cs hle p r h
      have : cs = [] := List.eq_nil_of_length_eq_zero (Nat.le_zero.mp hle)
      subst this
      simp [parseQuotedAux] at h
  | succ n ih =>
      intro cs hle p r h
      match cs, hle, h with
      | [], _, h => simp [parseQuotedAux] at h
      | [c], _, h =>
          simp only [parseQuotedAux] at h
          by_cases hc : c = dq
          · rw [if_pos hc] at h
            simp only [Option.some.injEq, Prod.mk.injEq] at h
            simp [← h.2]
          · rw [if_neg hc] at h; exact absurd h (by simp)
      | c :: c2 :: rest, hle, h =>
          simp only [parseQuotedAux] at h
          simp only [List.length_cons] at hle
          by_cases hc : c = dq
          · rw [if_pos hc] at h
            by_cases hc2 : c2 = dq
            · rw [if_pos hc2] at h
              cases h2 : parseQuotedAux rest with
              | none => rw [h2] at h; simp at h
              | some p2 =>
                  rw [h2] at h
                  obtain ⟨p2a, p2b⟩ := p2
                  simp only [Option.map_some', Option.some.injEq, Prod.mk.injEq] at h
                  have hrec := ih rest (by omega) p2a p2b h2
                  have hr : r = p2b := h.2.symm
                  subst hr
                  simp only [List.length_cons]
                  omega
            · rw [if_neg hc2] at h
              simp only [Option.some.injEq, Prod.mk.injEq] at h
              have hr : r = c2 :: rest := h.2.symm
              subst hr
              simp only [List.length_cons]
              omega
          · rw [if_neg hc] at h
            cases h2 : parseQuotedAux (c2 :: rest) with
            | none => rw [h2] at h; simp at h
            | some p2 =>
                rw [h2] at h
                obtain ⟨p2a, p2b⟩ := p2
                simp only [Option.map_some', Option.some.injEq, Prod.mk.injEq] at h
                have hrec := ih (c2 :: rest) (by simp only [List.length_cons]; omega) p2a p2b h2
                have hr : r = p2b := h.2.symm
                subst hr
                simp only [List.length_cons] at hrec ⊢
                omega

/-- The suffix a quoted cell leaves is strictly shorter than the input. -/
theorem parseQuotedAux_length {cs : List Char} {p r}
    (h : parseQuotedAux cs = some (p, r)) : r.length < cs.length :=
  parseQuotedAux_length_aux cs.length cs le_rfl p r h

/-- The suffix any cell leaves is never longer than the input. -/
theorem parseCellChars_length {cs : List Char} {p r}
    (h : parseCellChars cs = some (p, r)) : r.length ≤ cs.length := by
  match cs with
  | [] =>
      simp only [parseCellChars, Option.some.injEq, Prod.mk.injEq] at h
      simp [← h.2]
  | c :: rest =>
      simp only [parseCellChars] at h
      by_cases hc : c = dq
      · simp only [if_pos hc] at h
        have := parseQuotedAux_length h
        simp only [List.length_cons]
        omega
      · simp only [if_neg hc, Option.some.injEq, Prod.mk.injEq] at h
        have hr : r = (c :: rest).dropWhile csvPlain := h.2.symm
        subst hr
        exact dropWhile_length_le csvPlain (c :: rest)

/-- Read the cells of one line; stops after consuming the terminating
newline (or the end of input) and returns the remaining text. -/
def parseRowCells (cs : List Char) : Option (List String × List Char) :=
  match h : parseCellChars cs with
  | none => none
  | some (cell, rest) =>
      match rest with
      | [] => some ([String.mk cell], [])
      | c :: rest2 =>
          if c = ',' then
            (parseRowCells rest2).map (fun p => (String.mk cell :: p.1, p.2))
          else if c = '\n' then some ([String.mk cell], rest2)
          else none
termination_by cs.length
decreasing_by
  have hlen := parseCellChars_length h
  simp_all only [List.length_cons]
  omega

/-- Unfolding of `parseRowCells` when no cell can be read. -/
theorem parseRowCells_eq_none {cs : List Char}
    (h : parseCellChars cs = none) : parseRowCells cs = none := by
  rw [parseRowCells]
  split
  · rfl
  · rename_i cell2 rest3 heq
    rw [h] at heq
    exact absurd heq (by simp)

/-- Unfolding of `parseRowCells` when its first cell ends the input. -/
theorem parseRowCells_eq_nil {cs : List Char} {cell}
    (h : parseCellChars cs = some (cell, [])) :
    parseRowCells cs = some ([String.mk cell], []) := by
  rw [parseRowCells]
  split
  · simp_all
  · rename_i cell2 rest3 heq
    rw [h] at heq
    obtain ⟨h1, h2⟩ := Prod.mk.injEq .. ▸ Option.some.injEq .. ▸ heq
    subst h1
    subst h2
    rfl

/-- Unfolding of `parseRowCells` when its first cell leaves a suffix. -/
theorem parseRowCells_eq_cons {cs : List Char} {cell} {c : Char} {rest2}
    (h : parseCellChars cs = some (cell, c :: rest2)) :
    parseRowCells cs =
      if c = ',' then
        (parseRowCells rest2).map (fun p => (String.mk cell :: p.1, p.2))
      else if c = '\n' then some ([String.mk cell], rest2)
      else none := by
  rw [parseRowCells]
  split
  · simp_all
  · rename_i cell2 rest3 heq
    rw [h] at heq
    obtain ⟨h1, h2⟩ := Prod.mk.injEq .. ▸ Option.some.injEq .. ▸ heq
    subst h1
    subst h2
    rfl

/-- A successfully parsed row never lengthens the remaining input. -/
theorem parseRowCells_length_aux (n : Nat) :
    ∀ cs : List Char, cs.length ≤ n → ∀ row r, parseRowCells cs = some (row, r) →
      r.length ≤ cs.length := by
  induction n with
  | zero =>
      intro cs hle row r h
      have hnil : cs = [] := List.eq_nil_of_length_eq_zero (Nat.le_zero.mp hle)
      subst hnil
      have hcell : parseCellChars [] = some ([], []) := rfl
      rw [parseRowCells_eq_nil hcell] at h
      simp only [Option.some.injEq, Prod.mk.injEq] at h
      simp [← h.2]
  | succ n ih =>
      intro cs hle row r h
      cases hcell : parseCellChars cs with
      | none => rw [parseRowCells_eq_none hcell] at h; simp at h
      | some p =>
          obtain ⟨cell, rest⟩ := p
          have hrest := parseCellChars_length hcell
          cases rest with
          | nil =>
              rw [parseRowCells_eq_nil hcell] at h
              simp only [Option.some.injEq, Prod.mk.injEq] at h
              simp [← h.2]
          | cons c rest2 =>
              rw [parseRowCells_eq_cons hcell] at h
              by_cases hc : c = ','
              · rw [if_pos hc] at h
                cases h2 : parseRowCells rest2 with
                | none => rw [h2] at h; simp at h
                | some p2 =>
                    rw [h2] at h
                    obtain ⟨row2, r2⟩ := p2
                    simp only [Option.map_some', Option.some.injEq, Prod.mk.injEq] at h
                    have hrec := ih rest2
                      (by simp only [List.length_cons] at hrest; omega) row2 r2 h2
                    have hr : r = r2 := h.2.symm
                    subst hr
                    simp only [List.length_cons] at hrest
                    omega
              · rw [if_neg hc] at h
                by_cases hc2 : c = '\n'
                · rw [if_pos hc2] at h
                  simp only [Option.some.injEq, Prod.mk.injEq] at h
                  have hr : r = rest2 := h.2.symm
                  subst hr
                  simp only [List.length_cons] at hrest
                  omega
                · rw [if_neg hc2] at h; exact absurd h (by simp)

/-- A successfully parsed row never lengthens the remaining input. -/
theorem parseRowCells_length {cs : List Char} {row r}
    (h : parseRowCells cs = some (row, r)) : r.length ≤ cs.length :=
  parseRowCells_length_aux cs.length cs le_rfl row r h

/-- On non-empty input a parsed row strictly consumes characters. -/
theorem parseRowCells_length_lt {cs : List Char} {row r}
    (h : parseRowCells cs = some (row, r)) (hne : cs ≠ []) :
    r.length < cs.length := by
  cases hcell : parseCellChars cs with
  | none => rw [parseRowCells_eq_none hcell] at h; simp at h
  | some p =>
      obtain ⟨cell, rest⟩ := p
      have hrest := parseCellChars_length hcell
      cases rest with
      | nil =>
          rw [parseRowCells_eq_nil hcell] at h
          simp only [Option.some.injEq, Prod.mk.injEq] at h
          have hr : r = [] := h.2.symm
          subst hr
          simpa [List.length_pos] using hne
      | cons c rest2 =>
          rw [parseRowCells_eq_cons hcell] at h
          simp only [List.length_cons] at hrest
          by_cases hc : c = ','
          · rw [if_pos hc] at h
            cases h2 : parseRowCells rest2 with
            | none => rw [h2] at h; simp at h
            | some p2 =>
                rw [h2] at h
                obtain ⟨row2, r2⟩ := p2
                simp only [Option.map_some', Option.some.injEq, Prod.mk.injEq] at h
                have hrec := parseRowCells_length h2
                have hr : r = r2 := h.2.symm
                subst hr
                omega
          · rw [if_neg hc] at h
            by_cases hc2 : c = '\n'
            · rw [if_pos hc2] at h
              simp only [Option.some.injEq, Prod.mk.injEq] at h
              have hr : r = rest2 := h.2.symm
              subst hr
              omega
            · rw [if_neg hc2] at h; exact absurd h (by simp)

/-- Read all lines of a CSV text. -/
def parseRows (cs : List Char) : Option (List (List String)) :=
  if hne : cs = [] then some []
  else
    match h : parseRowCells cs with
    | none => none
    | some (row, rest) => (parseRows rest).map (fun rows => row :: rows)
termination_by cs.length
decreasing_by
  exact parseRowCells_length_lt h hne

/-- Parse CSV text into its rows of cell strings. -/
def parseCsv (s : String) : Option (List (List String)) :=
  parseRows s.data

/-! ## Round-trip: parsing undoes `toCsv` -/

/-- Rebuilding a string from its character list is the identity. -/
theorem mk_data (s : String) : String.mk s.data = s := by
  cases s
  rfl

/-- A quoted-and-escaped cell followed by a non-quote suffix parses back to
exactly the cell, leaving the suffix. -/
theorem parseQuotedAux_roundtrip (s : List Char) (rest : List Char)
    (hrest : rest.head? ≠ some dq) :
    parseQuotedAux (escapeQuotes s ++ dq :: rest) = some (s, rest) := by
  induction s with
  | nil =>
      simp only [escapeQuotes, List.nil_append]
      cases rest with
      | nil => simp [parseQuotedAux]
      | cons c2 r2 =>
          have hc2 : ¬c2 = dq := by simpa using hrest
          simp [parseQuotedAux, hc2]
  | cons c s2 ih =>
      by_cases hc : c = dq
      · subst hc
        simp only [escapeQuotes, if_pos rfl, List.cons_append]
        simp [parseQuotedAux, ih]
      · simp only [escapeQuotes, if_neg hc, List.cons_append]
        cases h2 : escapeQuotes s2 ++ dq :: rest with
        | nil => exact absurd h2 (by simp)
        | cons d ds =>
            simp only [parseQuotedAux, if_neg hc]
            rw [← h2, ih]
            rfl

/-- `takeWhile`/`dropWhile` split an all-satisfying prefix off exactly at a
failing head. -/
theorem takeWhile_append_eq (p : Char → Bool) :
    ∀ (s rest : List Char), (∀ c ∈ s, p c = true) →
      (∀ r rs, rest = r :: rs → p r = false) →
      (s ++ rest).takeWhile p = s ∧ (s ++ rest).dropWhile p = rest := by
  intro s
  induction s with
  | nil =>
      intro rest _ hrest
      simp only [List.nil_append]
      cases rest with
      | nil => simp
      | cons r rs =>
          rw [List.takeWhile_cons, List.dropWhile_cons, hrest r rs rfl]
          simp
  | cons c s2 ih =>
      intro rest hall hrest
      have hc : p c = true := hall c (by simp)
      obtain ⟨h1, h2⟩ := ih rest (fun x hx => hall x (by simp [hx])) hrest
      rw [List.cons_append, List.takeWhile_cons, List.dropWhile_cons, hc]
      simp [h1, h2]

/-- A serialized cell followed by a separator (or the end of input) parses
back to exactly its text. -/
theorem parseCellChars_roundtrip (s : String) (rest : List Char)
    (hrest : ∀ r rs, rest = r :: rs → r = ',' ∨ r = '\n') :
    parseCellChars ((csvCell s).data ++ rest) = some (s.data, rest) := by
  have hrdq : rest.head? ≠ some dq := by
    cases rest with
    | nil => simp
    | cons r rs =>
        rcases hrest r rs rfl with h | h <;> subst h <;> simp [dq]
  by_cases hq : needsQuote s
  · rw [csvCell, if_pos hq]
    show parseCellChars ((dq :: (escapeQuotes s.data ++ [dq])) ++ rest) = _
    rw [List.cons_append, List.append_assoc, List.singleton_append]
    simp only [parseCellChars, if_pos rfl]
    exact parseQuotedAux_roundtrip s.data rest hrdq
  · rw [csvCell, if_neg hq]
    have hq2 : ∀ x ∈ s.data, ((¬x = ',' ∧ ¬x = dq) ∧ ¬x = '\n') ∧ ¬x = '\x0d' := by
      simpa [needsQuote] using hq
    have hplain : ∀ c ∈ s.data, csvPlain c = true := by
      intro c hcmem
      obtain ⟨⟨⟨hx1, _⟩, hx3⟩, _⟩ := hq2 c hcmem
      simp only [csvPlain, Bool.and_eq_true, bne_iff_ne, ne_eq]
      exact ⟨hx1, hx3⟩
    have hfail : ∀ r rs, rest = r :: rs → csvPlain r = false := by
      intro r rs hr
      rcases hrest r rs hr with h | h <;> subst h <;> rfl
    cases hd : s.data with
    | nil =>
        simp only [hd, List.nil_append]
        cases rest with
        | nil => rfl
        | cons r rs =>
            have hrne : ¬r = dq := by
              rcases hrest r rs rfl with h | h <;> subst h <;> decide
            simp only [parseCellChars, if_neg hrne]
            obtain ⟨h1, h2⟩ :=
              takeWhile_append_eq csvPlain [] (r :: rs) (by simp) hfail
            simp only [List.nil_append] at h1 h2
            rw [h1, h2]
    | cons c cs2 =>
        have hcne : ¬c = dq := by
          obtain ⟨⟨⟨_, hx2⟩, _⟩, _⟩ := hq2 c (by simp [hd])
          exact hx2
        obtain ⟨h1, h2⟩ := takeWhile_append_eq csvPlain s.data rest hplain hfail
        rw [hd] at h1 h2
        rw [List.cons_append] at h1 h2 ⊢
        simp only [parseCellChars, if_neg hcne]
        rw [h1, h2]

/-- A serialized CSV line parses back to exactly its cells. -/
theorem parseRowCells_roundtrip :
    ∀ (cells : List String) (rest : List Char), cells ≠ [] →
      parseRowCells ((csvJoin (cells.map csvCell)).data ++ '\n' :: rest) =
        some (cells, rest) := by
  intro cells
  induction cells with
  | nil => intro rest h; exact absurd rfl h
  | cons c1 cs ih =>
      intro rest _
      cases cs with
      | nil =>
          have hcell := parseCellChars_roundtrip c1 ('\n' :: rest)
            (by intro r rs hr; right; exact (List.cons.injEq .. ▸ hr).1.symm)
          have hcell2 : parseCellChars ((csvJoin ([c1].map csvCell)).data ++ '\n' :: rest) =
              some (c1.data, '\n' :: rest) := by
            simpa [csvJoin] using hcell
          rw [parseRowCells_eq_cons hcell2]
          rw [if_neg (by decide), if_pos rfl, mk_data]
      | cons c2 cs2 =>
          have hjoin : csvJoin ((c1 :: c2 :: cs2).map csvCell) =
              csvCell c1 ++ "," ++ csvJoin ((c2 :: cs2).map csvCell) := rfl
          have hdata : (csvJoin ((c1 :: c2 :: cs2).map csvCell)).data ++ '\n' :: rest =
              (csvCell c1).data ++
                (',' :: ((csvJoin ((c2 :: cs2).map csvCell)).data ++ '\n' :: rest)) := by
            rw [hjoin]
            simp only [String.data_append, List.append_assoc]
            rfl
          have hcell := parseCellChars_roundtrip c1
            (',' :: ((csvJoin ((c2 :: cs2).map csvCell)).data ++ '\n' :: rest))
            (by intro r rs hr; left; exact (List.cons.injEq .. ▸ hr).1.symm)
          rw [hdata, parseRowCells_eq_cons hcell, if_pos rfl,
            ih rest (by simp), mk_data]
          rfl

/-- Unfolding of `parseRows` on non-empty input whose first line parses. -/
theorem parseRows_eq_cons {cs : List Char} {row rest}
    (hne : cs ≠ []) (h : parseRowCells cs = some (row, rest)) :
    parseRows cs = (parseRows rest).map (fun rows => row :: rows) := by
  rw [parseRows, dif_neg hne]
  split
  · simp_all
  · rename_i row2 rest2 heq
    rw [h] at heq
    obtain ⟨h1, h2⟩ := Prod.mk.injEq .. ▸ Option.some.injEq .. ▸ heq
    subst h1
    subst h2
    rfl

/-- The text of a list of CSV lines. -/
def rowsText : List (List String) → String
  | [] => ""
  | row :: rest => csvRow row ++ rowsText rest

/-- Serialized lines parse back to exactly the given rows. -/
theorem parseRows_roundtrip :
    ∀ rws : List (List String), (∀ row ∈ rws, row ≠ []) →
      parseRows (rowsText rws).data = some rws := by
  intro rws
  induction rws with
  | nil =>
      intro _
      show parseRows ([] : List Char) = some []
      rw [parseRows]
      simp
  | cons row rest ih =>
      intro hall
      have hrow : row ≠ [] := hall row (by simp)
      have hdata : (rowsText (row :: rest)).data =
          (csvJoin (row.map csvCell)).data ++ '\n' :: (rowsText rest).data := by
        show (csvRow row ++ rowsText rest).data = _
        rw [String.data_append, csvRow, String.data_append]
        simp only [List.append_assoc]
        rfl
      have hne : (rowsText (row :: rest)).data ≠ [] := by
        rw [hdata]
        simp
      have hcells := parseRowCells_roundtrip row (rowsText rest).data hrow
      rw [hdata, parseRows_eq_cons (hdata ▸ hne) hcells, ih (fun r hr => hall r (by simp [hr]))]
      rfl

/-- `csvBody` is the lines text of the records' cells. -/
theorem csvBody_eq_rowsText (rs : List SearchRecord) :
    csvBody rs = rowsText (rs.map recordCells) := by
  induction rs with
  | nil => rfl
  | cons r rest ih => simp only [csvBody, rowsText, List.map_cons, ih]

/-- `toCsv` is the lines text of header plus records. -/
theorem toCsv_eq_rowsText (rs : List SearchRecord) :
    toCsv rs = rowsText (["Title", "DOI", "Year", "Authors"] :: rs.map recordCells) := by
  rw [toCsv, csvBody_eq_rowsText]
  rfl

/-- Parsing the serialized CSV of any record list recovers the header row
and exactly one row of cell texts per record, in order. -/
theorem csv_roundtrip (rs : List SearchRecord) :
    parseCsv (toCsv rs) =
      some (["Title", "DOI", "Year", "Authors"] :: rs.map recordCells) := by
  rw [parseCsv, toCsv_eq_rowsText]
  apply parseRows_roundtrip
  intro row hrow
  rcases List.mem_cons.mp hrow with h | h
  · subst h; simp
  · obtain ⟨r, _, hr⟩ := List.mem_map.mp h
    subst hr
    simp [recordCells]

/-! ## Shape conditions under which normalization cannot raise

`normalizeItem` is *not* total on raw JSON (see claim C5): these Boolean
predicates delimit exactly the shapes whose present fields the Python code
indexes, iterates and strips without an exception. -/

/-- Values `x` for which `x[0]` succeeds whenever `x` is truthy. -/
def headIndexOk : Json → Bool
  | .arr _ => true
  | .str _ => true
  | _ => false

/-- The `title` value: falsy (replaced by `[]`) or indexable. -/
def titleShapeOk (t : Json) : Bool := !truthy t || headIndexOk t

/-- The `date-parts` value: falsy (replaced by `[[]]`), or indexable with
a first entry that is falsy or itself indexable. -/
def dateShapeOk (dp : Json) : Bool :=
  if truthy dp then
    match dp with
    | .str _ => true
    | .arr (x :: _) => !truthy x || headIndexOk x
    | _ => false
  else true

/-- A chosen `published` value: a dict with a well-shaped `date-parts`. -/
def pubShapeOk (p : Json) : Bool :=
  match p with
  | .obj pkvs => dateShapeOk ((lookupKey pkvs "date-parts").getD .null)
  | _ => false

/-- An optional field that `.strip()` tolerates: absent or a string. -/
def strOrAbsent : Option Json → Bool
  | none => true
  | some (.str _) => true
  | some _ => false

/-- One author entry: a dict whose `given`/`family` are absent or strings. -/
def authorShapeOk : Json → Bool
  | .obj kvs =>
      strOrAbsent (lookupKey kvs "given") && strOrAbsent (lookupKey kvs "family")
  | _ => false

/-- The `author` value after its default: a list of well-shaped entries. -/
def authorsShapeOk : Json → Bool
  | .arr xs => xs.all authorShapeOk
  | _ => false

/-- A raw item all of whose present fields have the shapes the Python code
expects: a dict; indexable-or-falsy title; a dict `published` field when
one is chosen; well-shaped `date-parts`; a list of well-shaped authors. -/
def wellShapedItem (item : Json) : Bool :=
  match item with
  | .obj kvs =>
      titleShapeOk ((lookupKey kvs "title").getD .null) &&
      (let pp := (lookupKey kvs "published-print").getD .null
       let po := (lookupKey kvs "published-online").getD .null
       if truthy pp then pubShapeOk pp
       else if truthy po then pubShapeOk po
       else true) &&
      authorsShapeOk ((lookupKey kvs "author").getD (.arr []))
  | _ => false

/-- Truthy indexable values have a first element. -/
theorem subscript0_ok_of_truthy {j : Json} (ht : truthy j = true)
    (hs : headIndexOk j = true) : ∃ v, subscript0 j = .ok v := by
  cases j with
  | arr xs =>
      cases xs with
      | nil => simp [truthy] at ht
      | cons x xs2 => exact ⟨x, rfl⟩
  | str s =>
      obtain ⟨l⟩ := s
      cases l with
      | nil => simp [truthy] at ht
      | cons c l2 => exact ⟨.str (String.mk [c]), rfl⟩
  | null => simp [headIndexOk] at hs
  | bool b => simp [headIndexOk] at hs
  | num n => simp [headIndexOk] at hs
  | obj kvs => simp [headIndexOk] at hs

/-- A well-shaped title never raises. -/
theorem titleOf_ok {kvs : List (String × Json)}
    (h : titleShapeOk ((lookupKey kvs "title").getD .null) = true) :
    ∃ t, titleOf (.obj kvs) = .ok t := by
  rw [titleOf]
  simp only [pyGet]
  by_cases ht : truthy ((lookupKey kvs "title").getD .null) = true
  · simp only [titleShapeOk, Bool.or_eq_true, Bool.not_eq_true'] at h
    rcases h with h | h
    · rw [ht] at h; exact absurd h (by simp)
    · rw [if_pos ht, if_pos ht]
      exact subscript0_ok_of_truthy ht h
  · rw [if_neg ht]
    rw [if_neg (by simp [truthy])]
    exact ⟨.str "Untitled", rfl⟩

/-- `doiOf` never raises on a dict. -/
theorem doiOf_ok (kvs : List (String × Json)) :
    doiOf (.obj kvs) = .ok ((lookupKey kvs "DOI").getD (.str "")) := rfl

/-- A well-shaped `date-parts` never raises in the year extraction. -/
theorem yearFromPublished_ok {pkvs : List (String × Json)}
    (h : dateShapeOk ((lookupKey pkvs "date-parts").getD .null) = true) :
    ∃ y, yearFromPublished (.obj pkvs) = .ok y := by
  rw [yearFromPublished]
  simp only [pyGet]
  generalize hv : (lookupKey pkvs "date-parts").getD .null = dpJ at h ⊢
  by_cases hd : truthy dpJ = true
  · rw [if_pos hd]
    simp only [dateShapeOk, if_pos hd] at h
    cases dpJ with
    | str s =>
        obtain ⟨l⟩ := s
        cases l with
        | nil => simp [truthy] at hd
        | cons c l2 =>
            rw [if_pos hd]
            simp only [subscript0]
            by_cases hc : truthy (Json.str (String.mk [c])) = true
            · rw [if_pos hc]
              exact ⟨.str (String.mk [c]), rfl⟩
            · rw [if_neg hc]
              exact ⟨.str "—", rfl⟩
    | arr xs =>
        cases xs with
        | nil => simp [truthy] at hd
        | cons x xs2 =>
            rw [if_pos hd]
            simp only [subscript0]
            by_cases hx : truthy x = true
            · rw [if_pos hx]
              simp only [Bool.or_eq_true, Bool.not_eq_true'] at h
              rcases h with h | h
              · rw [hx] at h; exact absurd h (by simp)
              · exact subscript0_ok_of_truthy hx h
            · rw [if_neg hx]
              exact ⟨.str "—", rfl⟩
    | null => simp [truthy] at hd
    | bool b => simp [dateShapeOk, if_pos hd] at h
    | num n => simp [dateShapeOk, if_pos hd] at h
    | obj kvs2 => simp [dateShapeOk, if_pos hd] at h
  · rw [if_neg hd]
    rw [if_pos (by simp [truthy])]
    simp only [subscript0]
    rw [if_neg (by simp [truthy])]
    exact ⟨.str "—", rfl⟩

/-- A well-shaped published field (or none) never raises in `yearOf`. -/
theorem yearOf_ok {kvs : List (String × Json)}
    (h : (if truthy ((lookupKey kvs "published-print").getD .null) then
            pubShapeOk ((lookupKey kvs "published-print").getD .null)
          else if truthy ((lookupKey kvs "published-online").getD .null) then
            pubShapeOk ((lookupKey kvs "published-online").getD .null)
          else true) = true) :
    ∃ y, yearOf (.obj kvs) = .ok y := by
  rw [yearOf]
  simp only [pyGet]
  generalize (lookupKey kvs "published-print").getD .null = pp at h ⊢
  generalize (lookupKey kvs "published-online").getD .null = po at h ⊢
  have hpub : pubShapeOk (if truthy pp then pp else if truthy po then po else .obj []) = true ∨
      (if truthy pp then pp else if truthy po then po else .obj []) = .obj [] := by
    by_cases h1 : truthy pp = true
    · rw [if_pos h1]; rw [if_pos h1] at h; exact Or.inl h
    · rw [if_neg h1]; rw [if_neg h1] at h
      by_cases h2 : truthy po = true
      · rw [if_pos h2]; rw [if_pos h2] at h; exact Or.inl h
      · rw [if_neg h2]; exact Or.inr rfl
  generalize (if truthy pp then pp else if truthy po then po else Json.obj []) = published at hpub ⊢
  rcases hpub with hpub | hpub
  · cases published with
    | obj pkvs => exact yearFromPublished_ok (by simpa [pubShapeOk] using hpub)
    | null => simp [pubShapeOk] at hpub
    | bool b => simp [pubShapeOk] at hpub
    | num n => simp [pubShapeOk] at hpub
    | str s => simp [pubShapeOk] at hpub
    | arr xs => simp [pubShapeOk] at hpub
  · subst hpub
    exact yearFromPublished_ok (by rfl)

/-- A well-shaped optional name field strips to some string. -/
theorem strOrAbsent_strip {akvs : List (String × Json)} (key : String)
    (h : strOrAbsent (lookupKey akvs key) = true) :
    ∃ s, pyGet (.obj akvs) key (.str "") = .ok (.str s) := by
  simp only [pyGet]
  cases hl : lookupKey akvs key with
  | none => exact ⟨"", rfl⟩
  | some v =>
      rw [hl] at h
      cases v with
      | str s => exact ⟨s, rfl⟩
      | null => simp [strOrAbsent] at h
      | bool b => simp [strOrAbsent] at h
      | num n => simp [strOrAbsent] at h
      | arr xs => simp [strOrAbsent] at h
      | obj kvs => simp [strOrAbsent] at h

/-- The author-name loop never raises over well-shaped entries. -/
theorem authorNames_ok :
    ∀ (xs : List Json) (acc : List String), (∀ a ∈ xs, authorShapeOk a = true) →
      ∃ names, authorNames xs acc = .ok names := by
  intro xs
  induction xs with
  | nil => intro acc _; exact ⟨acc, rfl⟩
  | cons a rest ih =>
      intro acc hall
      have ha := hall a (by simp)
      cases a with
      | obj akvs =>
          simp only [authorShapeOk, Bool.and_eq_true] at ha
          obtain ⟨gs, hgs⟩ := strOrAbsent_strip "given" ha.1
          obtain ⟨fs, hfs⟩ := strOrAbsent_strip "family" ha.2
          simp only [authorNames, hgs, hfs, pyStripStr]
          exact ih _ (fun x hx => hall x (by simp [hx]))
      | null => simp [authorShapeOk] at ha
      | bool b => simp [authorShapeOk] at ha
      | num n => simp [authorShapeOk] at ha
      | str s => simp [authorShapeOk] at ha
      | arr ys => simp [authorShapeOk] at ha

/-- A well-shaped author field never raises in `authorsOf`. -/
theorem authorsOf_ok {kvs : List (String × Json)}
    (h : authorsShapeOk ((lookupKey kvs "author").getD (.arr [])) = true) :
    ∃ s, authorsOf (.obj kvs) = .ok s := by
  rw [authorsOf]
  simp only [pyGet]
  generalize hv : (lookupKey kvs "author").getD (.arr []) = aJ at h ⊢
  cases aJ with
  | arr xs =>
      simp only [pyIter]
      simp only [authorsShapeOk, List.all_eq_true] at h
      obtain ⟨names, hnames⟩ := authorNames_ok xs [] h
      rw [hnames]
      exact ⟨_, rfl⟩
  | null => simp [authorsShapeOk] at h
  | bool b => simp [authorsShapeOk] at h
  | num n => simp [authorsShapeOk] at h
  | str s => simp [authorsShapeOk] at h
  | obj kvs2 => simp [authorsShapeOk] at h

/-- On a well-shaped item, normalization succeeds (never raises). -/
theorem normalizeItem_ok_of_wellShaped {item : Json}
    (h : wellShapedItem item = true) : (normalizeItem item).isOk = true := by
  cases item with
  | obj kvs =>
      simp only [wellShapedItem, Bool.and_eq_true] at h
      obtain ⟨⟨h1, h2⟩, h3⟩ := h
      obtain ⟨t, ht⟩ := titleOf_ok h1
      obtain ⟨y, hy⟩ := yearOf_ok (by simpa using h2)
      obtain ⟨a, ha⟩ := authorsOf_ok h3
      simp [normalizeItem, ht, doiOf_ok, hy, ha, Except.isOk, Except.toBool]
  | null => simp [wellShapedItem] at h
  | bool b => simp [wellShapedItem] at h
  | num n => simp [wellShapedItem] at h
  | str s => simp [wellShapedItem] at h
  | arr xs => simp [wellShapedItem] at h

/-- Successful normalization determines each field from its own stage. -/
theorem normalizeItem_fields {item : Json} {rec : SearchRecord}
    (h : normalizeItem item = .ok rec) :
    titleOf item = .ok rec.Title ∧ doiOf item = .ok rec.DOI ∧
      yearOf item = .ok rec.Year ∧ authorsOf item = .ok rec.Authors := by
  cases ht : titleOf item with
  | error e => simp [normalizeItem, ht] at h
  | ok t =>
      cases hd : doiOf item with
      | error e => simp [normalizeItem, ht, hd] at h
      | ok d =>
          cases hy : yearOf item with
          | error e => simp [normalizeItem, ht, hd, hy] at h
          | ok y =>
              cases ha : authorsOf item with
              | error e => simp [normalizeItem, ht, hd, hy, ha] at h
              | ok a =>
                  simp only [normalizeItem, ht, hd, hy, ha, Except.ok.injEq] at h
                  subst h
                  exact ⟨rfl, rfl, rfl, rfl⟩

/-! ## Spec-side year definitions (claim C6)

Two declarative readings of the year rule, to be compared with the
code's `yearOf`. `yearClaimC6` follows the claim's words literally
("the first *populated* date-parts entry", falling back only when print
is *absent*); `yearAmended` is the nearby statement the code satisfies. -/

/-- The published field the claim designates: `published-print` when the
key is present, else `published-online`. -/
def claimPublished (item : Json) : Option Json :=
  match item with
  | .obj kvs =>
      match lookupKey kvs "published-print" with
      | some p => some p
      | none => lookupKey kvs "published-online"
  | _ => none

/-- Claim C6's year, word for word: the first (outermost) component of the
first populated `date-parts` entry of the designated published field, and
the placeholder when no field or no date parts exist. -/
def yearClaimC6 (item : Json) : Json :=
  match claimPublished item with
  | some (.obj pkvs) =>
      match lookupKey pkvs "date-parts" with
      | some (.arr entries) =>
          match entries.find? (fun e => truthy e) with
          | some (.arr (y :: _)) => y
          | _ => .str "—"
      | _ => .str "—"
  | _ => .str "—"

/-- The published value the code designates: `published-print` when
truthy, else `published-online` when truthy, else none. -/
def chosenPublished (item : Json) : Option Json :=
  match item with
  | .obj kvs =>
      let pp := (lookupKey kvs "published-print").getD .null
      let po := (lookupKey kvs "published-online").getD .null
      if truthy pp then some pp else if truthy po then some po else none
  | _ => none

/-- First component of the *first* `date-parts` entry when that entry is a
populated list; the placeholder otherwise. -/
def firstDateComponent (d : Json) : Json :=
  match d with
  | .arr (.arr (y :: _) :: _) => y
  | _ => .str "—"

/-- The amended year rule the code satisfies: look only at the first
`date-parts` entry of the chosen published value. -/
def yearAmended (item : Json) : Json :=
  match chosenPublished item with
  | some (.obj pkvs) => firstDateComponent ((lookupKey pkvs "date-parts").getD .null)
  | _ => .str "—"

/-- A `date-parts` value `yearOf` is compared with `yearAmended` on:
absent/falsy, or a populated list whose first entry is a list or falsy. -/
def dpShapeC6 (d : Json) : Bool :=
  if truthy d then
    match d with
    | .arr (x :: _) =>
        (match x with
         | .arr _ => true
         | _ => !truthy x)
    | _ => false
  else true

/-- Date shapes on which `yearOf` is compared with `yearAmended`: a dict
item whose chosen published value (if any) is a dict whose `date-parts`
satisfies `dpShapeC6`. -/
def datesShapedC6 (item : Json) : Bool :=
  match item with
  | .obj _ =>
      match chosenPublished item with
      | none => true
      | some (.obj pkvs) => dpShapeC6 ((lookupKey pkvs "date-parts").getD .null)
      | some _ => false
  | _ => false

/-- On a well-shaped `date-parts`, the year extraction computes exactly
the first-entry rule. -/
theorem yearFromPublished_eq_firstDateComponent {pkvs : List (String × Json)}
    (h : dpShapeC6 ((lookupKey pkvs "date-parts").getD .null) = true) :
    yearFromPublished (.obj pkvs) =
      .ok (firstDateComponent ((lookupKey pkvs "date-parts").getD .null)) := by
  rw [yearFromPublished]
  simp only [pyGet, dpShapeC6] at h ⊢
  generalize hv : (lookupKey pkvs "date-parts").getD .null = d at h ⊢
  by_cases hd : truthy d = true
  · rw [if_pos hd] at h ⊢
    cases d with
    | arr xs =>
        cases xs with
        | nil => simp [truthy] at hd
        | cons x xs2 =>
            rw [if_pos hd]
            simp only [subscript0]
            cases x with
            | arr ys =>
                cases ys with
                | nil =>
                    rw [if_neg (by simp [truthy])]
                    rfl
                | cons y ys2 =>
                    rw [if_pos (by simp [truthy])]
                    rfl
            | null => rw [if_neg (by simp [truthy])]; rfl
            | bool b =>
                simp only [Bool.not_eq_true'] at h
                cases b with
                | false => rw [if_neg (by simp [truthy])]; rfl
                | true => simp [truthy] at h
            | num n =>
                simp only [Bool.not_eq_true'] at h
                have hn : n = 0 := by
                  by_contra hne
                  simp [truthy, hne] at h
                subst hn
                rw [if_neg (by simp [truthy])]
                rfl
            | str s =>
                simp only [Bool.not_eq_true'] at h
                have hs : s = "" := by
                  by_contra hne
                  simp [truthy, hne] at h
                subst hs
                rw [if_neg (by simp [truthy])]
                rfl
            | obj kvs2 =>
                simp only [Bool.not_eq_true'] at h
                cases kvs2 with
                | nil => rw [if_neg (by simp [truthy])]; rfl
                | cons kv rest => simp [truthy] at h
    | str s => simp at h
    | null => simp [truthy] at hd
    | bool b => simp at h
    | num n => simp at h
    | obj kvs2 => simp at h
  · rw [if_neg hd]
    rw [if_pos (by simp [truthy])]
    simp only [subscript0]
    rw [if_neg (by simp [truthy])]
    cases d with
    | arr xs =>
        cases xs with
        | nil => rfl
        | cons x xs2 => simp [truthy] at hd
    | null => rfl
    | bool b =>
        cases b with
        | false => rfl
        | true => simp [truthy] at hd
    | num n =>
        have hn : n = 0 := by
          by_contra hne
          simp [truthy, hne] at hd
        subst hn
        rfl
    | str s =>
        have hs : s = "" := by
          by_contra hne
          simp [truthy, hne] at hd
        subst hs
        rfl
    | obj kvs2 =>
        cases kvs2 with
        | nil => rfl
        | cons kv rest => simp [truthy] at hd

/-- On well-shaped dates the code's year is exactly the amended rule:
first component of the *first* `date-parts` entry of the chosen published
value (print when truthy, else online when truthy), `"—"` otherwise. -/
theorem yearOf_eq_yearAmended (item : Json) (h : datesShapedC6 item = true) :
    yearOf item = .ok (yearAmended item) := by
  cases item with
  | obj kvs =>
      rw [yearOf, yearAmended]
      simp only [pyGet, chosenPublished, datesShapedC6] at h ⊢
      by_cases h1 : truthy ((lookupKey kvs "published-print").getD .null) = true
      · rw [if_pos h1] at h
        rw [if_pos h1]
        rw [if_pos h1]
        cases hp : (lookupKey kvs "published-print").getD .null with
        | obj pkvs =>
            rw [hp] at h
            exact yearFromPublished_eq_firstDateComponent (by simpa using h)
        | null => rw [hp] at h1; simp [truthy] at h1
        | bool b => rw [hp] at h; simp at h
        | num n => rw [hp] at h; simp at h
        | str s => rw [hp] at h; simp at h
        | arr xs => rw [hp] at h; simp at h
      · rw [if_neg h1] at h
        rw [if_neg h1]
        rw [if_neg h1]
        by_cases h2 : truthy ((lookupKey kvs "published-online").getD .null) = true
        · rw [if_pos h2] at h
          rw [if_pos h2]
          rw [if_pos h2]
          cases hp : (lookupKey kvs "published-online").getD .null with
          | obj pkvs =>
              rw [hp] at h
              exact yearFromPublished_eq_firstDateComponent (by simpa using h)
          | null => rw [hp] at h2; simp [truthy] at h2
          | bool b => rw [hp] at h; simp at h
          | num n => rw [hp] at h; simp at h
          | str s => rw [hp] at h; simp at h
          | arr xs => rw [hp] at h; simp at h
        · rw [if_neg h2]
          rw [if_neg h2]
          rfl
  | null => simp [datesShapedC6] at h
  | bool b => simp [datesShapedC6] at h
  | num n => simp [datesShapedC6] at h
  | str s => simp [datesShapedC6] at h
  | arr xs => simp [datesShapedC6] at h

/-! ## Physical line counts of the serialized CSV -/

/-- Escaping quotes leaves the newline count unchanged. -/
theorem count_nl_escapeQuotes (l : List Char) :
    (escapeQuotes l).count '\n' = l.count '\n' := by
  induction l with
  | nil => rfl
  | cons c rest ih =>
      rw [escapeQuotes]
      by_cases hc : c = dq
      · rw [if_pos hc]
        subst hc
        simp only [List.count_cons, ih]
        have hne : ¬dq = '\n' := by decide
        simp [hne]
      · rw [if_neg hc]
        simp only [List.count_cons, ih]

/-- A newline-free cell serializes to a newline-free CSV cell. -/
theorem count_nl_csvCell (s : String) (h : s.data.count '\n' = 0) :
    (csvCell s).data.count '\n' = 0 := by
  rw [csvCell]
  by_cases hq : needsQuote s
  · rw [if_pos hq]
    show (dq :: (escapeQuotes s.data ++ [dq])).count '\n' = 0
    simp only [List.count_cons, List.count_append, count_nl_escapeQuotes, h]
    have hne : ¬dq = '\n' := by decide
    simp [hne]
  · rw [if_neg hq]
    exact h

/-- Joining newline-free cells with commas stays newline-free. -/
theorem count_nl_csvJoin (cells : List String)
    (h : ∀ c ∈ cells, c.data.count '\n' = 0) :
    (csvJoin cells).data.count '\n' = 0 := by
  induction cells with
  | nil => rfl
  | cons c rest ih =>
      cases rest with
      | nil => exact h c (by simp)
      | cons c2 rest2 =>
          show ((c ++ "," ++ csvJoin (c2 :: rest2)).data).count '\n' = 0
          simp only [String.data_append, List.count_append]
          rw [h c (by simp), ih (fun x hx => h x (by simp [hx]))]
          rfl

/-- A CSV line of newline-free cells holds exactly one newline. -/
theorem count_nl_csvRow (cells : List String)
    (h : ∀ c ∈ cells, c.data.count '\n' = 0) :
    (csvRow cells).data.count '\n' = 1 := by
  rw [csvRow]
  simp only [String.data_append, List.count_append]
  rw [count_nl_csvJoin (cells.map csvCell)
    (by intro c hc; obtain ⟨c0, hc0, rfl⟩ := List.mem_map.mp hc; exact count_nl_csvCell c0 (h c0 hc0))]
  rfl

/-- The data lines hold one newline per record when cells are newline-free. -/
theorem count_nl_csvBody (rs : List SearchRecord)
    (h : ∀ r ∈ rs, ∀ c ∈ recordCells r, c.data.count '\n' = 0) :
    (csvBody rs).data.count '\n' = rs.length := by
  induction rs with
  | nil => rfl
  | cons r rest ih =>
      show ((csvRow (recordCells r) ++ csvBody rest).data).count '\n' = rest.length + 1
      simp only [String.data_append, List.count_append]
      rw [count_nl_csvRow (recordCells r) (h r (by simp)),
        ih (fun x hx => h x (by simp [hx]))]
      omega

/-- The whole CSV text holds one newline per record plus the header line. -/
theorem count_nl_toCsv (rs : List SearchRecord)
    (h : ∀ r ∈ rs, ∀ c ∈ recordCells r, c.data.count '\n' = 0) :
    (toCsv rs).data.count '\n' = rs.length + 1 := by
  rw [toCsv]
  simp only [String.data_append, List.count_append]
  rw [count_nl_csvRow ["Title", "DOI", "Year", "Authors"] (by decide),
    count_nl_csvBody rs h]
  omega

/-! ## Sample data used in concrete instantiations -/

/-- One fully populated record. -/
def sampleRecord : SearchRecord :=
  ⟨.str "Deep Learning", .str "10.1000/xyz", .num 2019, "Ada Lovelace"⟩

/-- A state with one cached record and its keyword. -/
def cachedSt : St := ⟨some [sampleRecord], some "ai"⟩

/-- An upstream body whose `message.items` list is empty. -/
def emptyItemsBody : Json := .obj [("message", .obj [("items", .arr [])])]

/-- Three cached records. -/
def threeRecords : List SearchRecord :=
  [⟨.str "A", .str "d1", .num 2019, "X"⟩,
   ⟨.str "B", .str "d2", .num 2020, "Y"⟩,
   ⟨.str "C", .str "d3", .str "—", "Z"⟩]

/-- A record whose title holds a comma, a quote and a newline. -/
def trickyRecord : SearchRecord :=
  ⟨.str "A,\"B\"\nC", .str "10.1/z", .num 2020, "D; E"⟩

/-! ## The claims -/

/-- Claim C10: the download operation never modifies the shared state —
for every cache contents the globals after a `/download` request equal the
globals before it. -/
theorem C10_download_pure (st : St) : (download_csv st).st = st := by
  cases hl : st.latest_results_df with
  | none => simp [download_csv, hl]
  | some df => by_cases he : df.isEmpty <;> simp [download_csv, hl, he]

/-- Claim C8: `/download` flashes a nothing-to-download message and
redirects when the cache is `None` or empty; otherwise it returns the
cached ResultSet serialized as a `text/csv` attachment named
`crossref_results.csv` whose text opens with the exact header line
`Title,DOI,Year,Authors`, parses back to one CSV row per cached record,
and (for newline-free cells) holds `n + 1` physical lines for `n`
records. -/
theorem C8_download :
    (∀ st : St, st.latest_results_df = none →
        download_csv st = ⟨.redirectIndex, ["No search results to download yet."], st⟩) ∧
    (∀ st : St, st.latest_results_df = some [] →
        download_csv st = ⟨.redirectIndex, ["No search results to download yet."], st⟩) ∧
    (∀ (st : St) (df : List SearchRecord), st.latest_results_df = some df → df ≠ [] →
        download_csv st = ⟨.sendFile "crossref_results.csv" "text/csv" (toCsv df), [], st⟩) ∧
    (∀ df : List SearchRecord, toCsv df = "Title,DOI,Year,Authors\n" ++ csvBody df) ∧
    (∀ df : List SearchRecord,
        parseCsv (toCsv df) = some (["Title", "DOI", "Year", "Authors"] :: df.map recordCells)) ∧
    (∀ df : List SearchRecord,
        (∀ r ∈ df, ∀ c ∈ recordCells r, c.data.count '\n' = 0) →
        (toCsv df).data.count '\n' = df.length + 1) := by
  refine ⟨?_, ?_, ?_, ?_, ?_, ?_⟩
  · intro st h
    simp [download_csv, h]
  · intro st h
    simp [download_csv, h]
  · intro st df h1 h2
    cases df with
    | nil => exact absurd rfl h2
    | cons r rest => simp [download_csv, h1]
  · intro df
    rw [toCsv]
    rfl
  · exact csv_roundtrip
  · exact count_nl_toCsv

/-- Witness for C8 at a cache of three records: the attachment is produced
and its text has four physical lines. -/
theorem C8_witness :
    download_csv ⟨some threeRecords, some "ml"⟩ =
      ⟨.sendFile "crossref_results.csv" "text/csv" (toCsv threeRecords), [],
       ⟨some threeRecords, some "ml"⟩⟩ ∧
    (toCsv threeRecords).data.count '\n' = threeRecords.length + 1 :=
  ⟨C8_download.2.2.1 ⟨some threeRecords, some "ml"⟩ threeRecords rfl
      (by intro h; simp [threeRecords] at h),
   C8_download.2.2.2.2.2 threeRecords (by decide)⟩

/-- Claim C9: serializing any ResultSet to CSV and parsing it back yields
the header plus exactly the records' cell texts; for records whose title
and identifier are strings (as the data model prescribes), those parsed
cells are the field values themselves, with Year recovered as its string
rendering. -/
theorem C9_roundtrip :
    (∀ rs : List SearchRecord,
        parseCsv (toCsv rs) = some (["Title", "DOI", "Year", "Authors"] :: rs.map recordCells)) ∧
    (∀ (r : SearchRecord) (t d : String), r.Title = .str t → r.DOI = .str d →
        recordCells r = [t, d, pyStr r.Year, r.Authors]) := by
  refine ⟨csv_roundtrip, ?_⟩
  intro r t d h1 h2
  rw [recordCells, h1, h2]
  rfl

/-- Witness for C9 at a record whose title embeds a comma, a quote and a
newline: the quoted CSV still parses back to the exact field values. -/
theorem C9_witness :
    parseCsv (toCsv [trickyRecord]) =
      some (["Title", "DOI", "Year", "Authors"] :: [trickyRecord].map recordCells) ∧
    recordCells trickyRecord = ["A,\"B\"\nC", "10.1/z", pyStr (.num 2020), "D; E"] :=
  ⟨C9_roundtrip.1 [trickyRecord], C9_roundtrip.2 trickyRecord "A,\"B\"\nC" "10.1/z" rfl rfl⟩

/-- Claim C2: the cache starts empty and is overwritten only by a POST
whose fetched ResultSet is non-empty; every other request (GET, download,
validation failure, fetch failure, empty result) leaves it unchanged. -/
theorem C2_cache_lifecycle :
    initialSt.latest_results_df = none ∧ initialSt.latest_query = none ∧
    ∀ (req : Request) (st : St),
      (handle req st).st = st ∨
      ∃ k r oracle recs,
        req = .postIndex k r oracle ∧ recs ≠ [] ∧
        fetch_crossref_results (oracle (pyStrip (pyOrStr k "")) (effectiveRows r)) = .ok recs ∧
        pyStrip (pyOrStr k "") ≠ "" ∧
        (handle req st).st = ⟨some recs, some (pyStrip (pyOrStr k ""))⟩ := by
  refine ⟨rfl, rfl, ?_⟩
  intro req st
  cases req with
  | getIndex => exact Or.inl rfl
  | getDownload => exact Or.inl (C10_download_pure st)
  | postIndex k r oracle =>
      by_cases hk : pyStrip (pyOrStr k "") = ""
      · left
        simp [handle, indexPost, hk]
      · cases hf : fetch_crossref_results (oracle (pyStrip (pyOrStr k "")) (effectiveRows r)) with
        | error e =>
            left
            cases e <;> simp [handle, indexPost, hk, hf]
        | ok recs =>
            by_cases he : recs.isEmpty
            · left
              simp [handle, indexPost, hk, hf, he]
            · right
              refine ⟨k, r, oracle, recs, rfl, by simpa using he, hf, hk, ?_⟩
              simp [handle, indexPost, hk, hf, he]

/-- Claim C3: every failure of the search-and-render operation flashes a
message and redirects, leaving the cache unchanged. An empty trimmed
keyword redirects identically for *every* oracle (the Search Client is
never consulted); a non-2xx upstream status flashes a message carrying the
status code; a transport failure flashes the generic unreachable
message. -/
theorem C3_failure_paths :
    (∀ (k r : Option String) (oracle : String → Int → Upstream) (st : St),
        pyStrip (pyOrStr k "") = "" →
        indexPost k r oracle st =
          ⟨.redirectIndex, ["Please enter a research topic keyword."], st⟩) ∧
    (∀ (k r : Option String) (oracle : String → Int → Upstream) (st : St) (s : Nat),
        pyStrip (pyOrStr k "") ≠ "" →
        oracle (pyStrip (pyOrStr k "")) (effectiveRows r) = .httpError s →
        indexPost k r oracle st =
          ⟨.redirectIndex, ["Crossref API error: " ++ toString s], st⟩) ∧
    (∀ (k r : Option String) (oracle : String → Int → Upstream) (st : St),
        pyStrip (pyOrStr k "") ≠ "" →
        oracle (pyStrip (pyOrStr k "")) (effectiveRows r) = .requestError →
        indexPost k r oracle st =
          ⟨.redirectIndex, ["Unable to reach Crossref API. Please try again later."], st⟩) := by
  refine ⟨?_, ?_, ?_⟩
  · intro k r oracle st hk
    simp [indexPost, hk]
  · intro k r oracle st s hk hup
    simp [indexPost, hk, hup, fetch_crossref_results]
  · intro k r oracle st hk hup
    simp [indexPost, hk, hup, fetch_crossref_results]

/-- Witness for C3: a whitespace keyword redirects with the validation
message; upstream status 429 yields a message carrying `429`; a transport
failure yields the unreachable message — cache untouched each time. -/
theorem C3_witness :
    indexPost (some "   ") (some "10") (fun _ _ => .requestError) cachedSt =
      ⟨.redirectIndex, ["Please enter a research topic keyword."], cachedSt⟩ ∧
    indexPost (some "ml") (some "5") (fun _ _ => .httpError 429) cachedSt =
      ⟨.redirectIndex, ["Crossref API error: " ++ toString 429], cachedSt⟩ ∧
    indexPost (some "ml") (some "5") (fun _ _ => .requestError) cachedSt =
      ⟨.redirectIndex, ["Unable to reach Crossref API. Please try again later."], cachedSt⟩ :=
  ⟨C3_failure_paths.1 (some "   ") (some "10") (fun _ _ => .requestError) cachedSt rfl,
   C3_failure_paths.2.1 (some "ml") (some "5") (fun _ _ => .httpError 429) cachedSt 429
     (by decide) rfl,
   C3_failure_paths.2.2 (some "ml") (some "5") (fun _ _ => .requestError) cachedSt
     (by decide) rfl⟩

/-- Counterexample to claim C1: with a non-empty cached ResultSet loaded,
a POST whose upstream succeeds with zero items flashes the no-results
message and leaves the cache — but the rendered page receives the *empty*
new ResultSet, not the cached one, so it cannot "still show the previously
cached ResultSet". -/
theorem C1_counterexample :
    indexPost (some "quantum computing") (some "10")
        (fun _ _ => .success emptyItemsBody) cachedSt =
      ⟨.render (some []) "quantum computing" 10,
       ["No results found for that query after 2015."], cachedSt⟩ ∧
    cachedSt.latest_results_df = some [sampleRecord] ∧
    some ([] : List SearchRecord) ≠ some [sampleRecord] :=
  ⟨rfl, rfl, by simp [sampleRecord]⟩

/-- Claim C1 as amended: on a successful upstream call returning an empty
ResultSet the handler flashes the no-results message and leaves the cache
unchanged, but renders the page with the empty new ResultSet (`results`
is the empty frame, not the cached one); the cached ResultSet remains
stored and is the one rendered by a subsequent GET. -/
theorem C1_amended (form_k form_r : Option String)
    (oracle : String → Int → Upstream) (st : St)
    (hk : pyStrip (pyOrStr form_k "") ≠ "")
    (hup : fetch_crossref_results
        (oracle (pyStrip (pyOrStr form_k "")) (effectiveRows form_r)) = .ok []) :
    indexPost form_k form_r oracle st =
      ⟨.render (some []) (pyStrip (pyOrStr form_k "")) (effectiveRows form_r),
       ["No results found for that query after 2015."], st⟩ ∧
    (handle .getIndex st).resp =
      .render st.latest_results_df (pyOrStr st.latest_query "") 10 := by
  constructor
  · simp [indexPost, renderResp, pyOr, hk, hup]
  · simp [handle, indexGet, renderResp, pyOr]

/-- Witness for the amended C1 at a concrete empty-result search over a
loaded cache. -/
theorem C1_witness :
    pyStrip (pyOrStr (some "quantum computing") "") ≠ "" ∧
    indexPost (some "quantum computing") (some "10")
        (fun _ _ => .success emptyItemsBody) cachedSt =
      ⟨.render (some []) (pyStrip (pyOrStr (some "quantum computing") ""))
        (effectiveRows (some "10")),
       ["No results found for that query after 2015."], cachedSt⟩ :=
  ⟨by decide,
   (C1_amended (some "quantum computing") (some "10")
     (fun _ _ => .success emptyItemsBody) cachedSt (by decide) rfl).1⟩

/-- Claim C7: the rows value handed to the Search Client is the parsed
form integer clamped into `[1, 100]`, defaulting to `10` when the input
does not parse; and the handler's outcome depends on the oracle only at
that effective rows value. -/
theorem C7_rows_clamped :
    (∀ (r : Option String) (n : Int),
        pyInt (pyOrStr r "10") = some n →
        effectiveRows r = max 1 (min 100 n) ∧
          1 ≤ effectiveRows r ∧ effectiveRows r ≤ 100) ∧
    (∀ r : Option String, pyInt (pyOrStr r "10") = none → effectiveRows r = 10) ∧
    (∀ (k r : Option String) (o1 o2 : String → Int → Upstream) (st : St),
        (∀ kw, o1 kw (effectiveRows r) = o2 kw (effectiveRows r)) →
        indexPost k r o1 st = indexPost k r o2 st) := by
  refine ⟨?_, ?_, ?_⟩
  · intro r n h
    have he : effectiveRows r = max 1 (min 100 n) := by
      simp [effectiveRows, h]
    refine ⟨he, ?_, ?_⟩
    · rw [he]; exact le_max_left 1 (min 100 n)
    · rw [he]
      exact max_le (by norm_num) (min_le_left 100 n)
  · intro r h
    simp [effectiveRows, h]
  · intro k r o1 o2 st hor
    by_cases hk : pyStrip (pyOrStr k "") = ""
    · simp [indexPost, hk]
    · simp only [indexPost]
      rw [hor (pyStrip (pyOrStr k ""))]

/-- Witness for C7: `"500"` clamps to 100, `"0"` clamps to 1, `"abc"`
defaults to 10. -/
theorem C7_witness :
    (effectiveRows (some "500") = max 1 (min 100 500) ∧
      1 ≤ effectiveRows (some "500") ∧ effectiveRows (some "500") ≤ 100) ∧
    (effectiveRows (some "0") = max 1 (min 100 0) ∧
      1 ≤ effectiveRows (some "0") ∧ effectiveRows (some "0") ≤ 100) ∧
    effectiveRows (some "abc") = 10 :=
  ⟨C7_rows_clamped.1 (some "500") 500 rfl,
   C7_rows_clamped.1 (some "0") 0 rfl,
   C7_rows_clamped.2.1 (some "abc") rfl⟩

/-- Counterexample to claim C4: an item carrying an explicit `null` DOI is
accepted by the Normalizer, yet the produced record's identifier is the
null value, not the empty-string placeholder the claim promises. -/
theorem C4_counterexample :
    normalizeItem (.obj [("DOI", Json.null)]) =
      .ok ⟨.str "Untitled", Json.null, .str "—", "Unknown"⟩ ∧
    Json.null ≠ .str "" :=
  ⟨rfl, by simp⟩

/-- Claim C4 as amended: all four fields are always present on a produced
record, and fields *absent* from the source map to the explicit
placeholders (`"Untitled"`, `""`, `"—"`, `"Unknown"`); a field present
with an explicit `null` value, however, flows through as null. -/
theorem C4_amended (kvs : List (String × Json)) (rec : SearchRecord)
    (h : normalizeItem (.obj kvs) = .ok rec) :
    (lookupKey kvs "title" = none → rec.Title = .str "Untitled") ∧
    (lookupKey kvs "DOI" = none → rec.DOI = .str "") ∧
    (lookupKey kvs "published-print" = none → lookupKey kvs "published-online" = none →
        rec.Year = .str "—") ∧
    (lookupKey kvs "author" = none → rec.Authors = "Unknown") := by
  obtain ⟨ht, hd, hy, ha⟩ := normalizeItem_fields h
  refine ⟨?_, ?_, ?_, ?_⟩
  · intro h1
    have hcomp : titleOf (.obj kvs) = .ok (.str "Untitled") := by
      simp [titleOf, pyGet, h1, truthy]
    have := hcomp.symm.trans ht
    simpa using this.symm
  · intro h1
    have hcomp : doiOf (.obj kvs) = .ok (.str "") := by
      simp [doiOf, pyGet, h1]
    have := hcomp.symm.trans hd
    simpa using this.symm
  · intro h1 h2
    have hcomp : yearOf (.obj kvs) = .ok (.str "—") := by
      rw [yearOf]
      simp only [pyGet, h1, h2, Option.getD_none]
      rw [if_neg (by simp [truthy]), if_neg (by simp [truthy])]
      rfl
    have := hcomp.symm.trans hy
    simpa using this.symm
  · intro h1
    have hcomp : authorsOf (.obj kvs) = .ok "Unknown" := by
      simp [authorsOf, pyGet, h1, pyIter, authorNames]
    have := hcomp.symm.trans ha
    simpa using this.symm

/-- Witness for the amended C4 at the empty item: every field is the
explicit placeholder. -/
theorem C4_witness :
    (⟨.str "Untitled", .str "", .str "—", "Unknown"⟩ : SearchRecord).Title = .str "Untitled" ∧
    (⟨.str "Untitled", .str "", .str "—", "Unknown"⟩ : SearchRecord).DOI = .str "" ∧
    (⟨.str "Untitled", .str "", .str "—", "Unknown"⟩ : SearchRecord).Year = .str "—" ∧
    (⟨.str "Untitled", .str "", .str "—", "Unknown"⟩ : SearchRecord).Authors = "Unknown" :=
  have h := C4_amended [] ⟨.str "Untitled", .str "", .str "—", "Unknown"⟩ rfl
  ⟨h.1 rfl, h.2.1 rfl, h.2.2.1 rfl rfl, h.2.2.2 rfl⟩

/-- Counterexample to claim C5: an item whose `author` field is an
explicit `null` raises a `TypeError` (Python iterates
`item.get("author", [])`, which is `None` here), so normalization is not
total on malformed items of unexpected shape. -/
theorem C5_counterexample :
    normalizeItem (.obj [("author", Json.null)]) = .error "TypeError: not iterable" :=
  rfl

/-- Claim C5 as amended: normalization never raises on items whose
*present* fields are well-shaped (missing fields degrade to placeholders);
an item with a field of unexpected shape — e.g. `author: null` — raises. -/
theorem C5_amended (item : Json) (h : wellShapedItem item = true) :
    (normalizeItem item).isOk = true :=
  normalizeItem_ok_of_wellShaped h

/-- A fully populated well-shaped raw item. -/
def sampleItem : Json :=
  .obj [("title", .arr [.str "Deep Learning"]),
        ("DOI", .str "10.1000/xyz"),
        ("published-print", .obj [("date-parts", .arr [.arr [.num 2019, .num 4]])]),
        ("author", .arr [.obj [("given", .str "Ada"), ("family", .str "Lovelace")]])]

/-- Witness for the amended C5 at a concrete well-shaped item. -/
theorem C5_witness :
    wellShapedItem sampleItem = true ∧ (normalizeItem sampleItem).isOk = true :=
  ⟨by decide, C5_amended sampleItem (by decide)⟩

/-- An item whose print `date-parts` opens with an empty entry followed by
a populated one. -/
def skipEntryItem : Json :=
  .obj [("published-print", .obj [("date-parts", .arr [.arr [], .arr [.num 2015]])])]

/-- Counterexample to claim C6: with `date-parts = [[], [2015]]` the code
yields the placeholder (it only inspects the first entry), while the
claim's "first populated date-parts entry" rule yields 2015 — and the
claim's fallback clause does not apply, since date parts do exist. -/
theorem C6_counterexample :
    yearOf skipEntryItem = .ok (.str "—") ∧
    yearClaimC6 skipEntryItem = .num 2015 ∧
    Json.str "—" ≠ .num 2015 :=
  ⟨rfl, rfl, by simp⟩

/-- Claim C6 as amended: on well-shaped dates the year is the first
component of the *first* `date-parts` entry of the chosen published value
(print when truthy, falling back to online also when print is present but
empty), and the placeholder whenever that first entry is absent or empty —
later entries are never consulted. -/
theorem C6_amended (item : Json) (h : datesShapedC6 item = true) :
    yearOf item = .ok (yearAmended item) :=
  yearOf_eq_yearAmended item h

/-- An item with only a populated `published-online` date. -/
def onlineItem : Json :=
  .obj [("published-online", .obj [("date-parts", .arr [.arr [.num 2021, .num 5]])])]

/-- Witness for the amended C6 at a concrete online-only item: the year is
the outermost component of the first date entry. -/
theorem C6_witness :
    datesShapedC6 onlineItem = true ∧
    yearOf onlineItem = .ok (yearAmended onlineItem) ∧
    yearAmended onlineItem = .num 2021 :=
  ⟨by decide, C6_amended onlineItem (by decide), rfl⟩

end ResearchSearch
